import Mathlib

/-!
Verification of the protocol core of the `amq` messaging library.

The Go sources are shallowly embedded: the wire envelope (`MsgPayload`),
the message body (`MsgBody`), the three typed message variants, the MD5
based signing scheme, the handshake entry points (`HandleNew`,
`HandleAck`) and the client side queue-name validation (`messageCheck`,
`Send`) are translated into executable Lean definitions, and the claims
of the specification are proved or refuted against them.

Modelling conventions:
* Go `string`-typed enums (`_MessageCategory`, `_MessagePhase`) are plain
  `String`s, since the Go code compares and stores arbitrary string values.
* Go `int64` is `Int`; wall-clock time (`time.Now().Unix()`) is passed in
  as an explicit `now` argument.
* A Go `map[string]string` is an association list; the states reachable
  through the API have pairwise distinct keys, which theorems record as a
  `Nodup` hypothesis where it matters.
* A nil `*MsgBody` returned by a listener is `Option.none`; an error value
  is `Option` of the error type (Go `nil` error = `none`).
* Logging (`log.Error`) is modelled by returning the list of logged items.
-/

namespace Amq

/-! ## MD5 (the hash used by `utils.MD5` in `Signature`, RFC 1321) -/

/-- Truncate to an unsigned 32-bit value. -/
def u32 (n : Nat) : Nat := n % 4294967296

/-- Bitwise complement on 32 bits. -/
def bnot32 (x : Nat) : Nat := Nat.xor x 4294967295

/-- Rotate a 32-bit value left by `s` bits. -/
def rotl32 (x s : Nat) : Nat := u32 (x <<< s) ||| (x >>> (32 - s))

/-- The MD5 sine-derived constant table `K`. -/
def md5K : List Nat :=
  [3614090360, 3905402710, 606105819, 3250441966, 4118548399, 1200080426,
   2821735955, 4249261313, 1770035416, 2336552879, 4294925233, 2304563134,
   1804603682, 4254626195, 2792965006, 1236535329, 4129170786, 3225465664,
   643717713, 3921069994, 3593408605, 38016083, 3634488961, 3889429448,
   568446438, 3275163606, 4107603335, 1163531501, 2850285829, 4243563512,
   1735328473, 2368359562, 4294588738, 2272392833, 1839030562, 4259657740,
   2763975236, 1272893353, 4139469664, 3200236656, 681279174, 3936430074,
   3572445317, 76029189, 3654602809, 3873151461, 530742520, 3299628645,
   4096336452, 1126891415, 2878612391, 4237533241, 1700485571, 2399980690,
   4293915773, 2240044497, 1873313359, 4264355552, 2734768916, 1309151649,
   4149444226, 3174756917, 718787259, 3951481745]

/-- The MD5 per-round left-rotation amounts. -/
def md5S : List Nat :=
  [7, 12, 17, 22, 7, 12, 17, 22, 7, 12, 17, 22, 7, 12, 17, 22,
   5, 9, 14, 20, 5, 9, 14, 20, 5, 9, 14, 20, 5, 9, 14, 20,
   4, 11, 16, 23, 4, 11, 16, 23, 4, 11, 16, 23, 4, 11, 16, 23,
   6, 10, 15, 21, 6, 10, 15, 21, 6, 10, 15, 21, 6, 10, 15, 21]

/-- The MD5 round function (F, G, H, I depending on the round index). -/
def md5F (b c d i : Nat) : Nat :=
  if i < 16 then (b &&& c) ||| (bnot32 b &&& d)
  else if i < 32 then (d &&& b) ||| (bnot32 d &&& c)
  else if i < 48 then Nat.xor b (Nat.xor c d)
  else Nat.xor c (b ||| bnot32 d)

/-- The MD5 message-word index schedule. -/
def md5G (i : Nat) : Nat :=
  if i < 16 then i
  else if i < 32 then (5 * i + 1) % 16
  else if i < 48 then (3 * i + 5) % 16
  else (7 * i) % 16

/-- One MD5 round on the state `(a, b, c, d)`. -/
def md5Step (M : List Nat) (st : Nat × Nat × Nat × Nat) (i : Nat) :
    Nat × Nat × Nat × Nat :=
  let f := u32 (md5F st.2.1 st.2.2.1 st.2.2.2 i + st.1 +
                md5K.getD i 0 + M.getD (md5G i) 0)
  (st.2.2.2, u32 (st.2.1 + rotl32 f (md5S.getD i 0)), st.2.1, st.2.2.1)

/-- Decode little-endian 32-bit word `j` from a 64-byte chunk. -/
def leWord (chunk : List Nat) (j : Nat) : Nat :=
  chunk.getD (4 * j) 0 + 256 * chunk.getD (4 * j + 1) 0 +
  65536 * chunk.getD (4 * j + 2) 0 + 16777216 * chunk.getD (4 * j + 3) 0

/-- Process one 64-byte chunk, updating the running MD5 state. -/
def md5Chunk (h : Nat × Nat × Nat × Nat) (chunk : List Nat) :
    Nat × Nat × Nat × Nat :=
  let M := (List.range 16).map (leWord chunk)
  let r := (List.range 64).foldl (md5Step M) h
  (u32 (h.1 + r.1), u32 (h.2.1 + r.2.1), u32 (h.2.2.1 + r.2.2.1),
   u32 (h.2.2.2 + r.2.2.2))

/-- MD5 padding: append `0x80`, zeros up to 56 mod 64, then the 64-bit
little-endian bit length of the original message. -/
def padMsg (msg : List Nat) : List Nat :=
  let len := msg.length
  let zeros := List.replicate ((119 - len % 64) % 64) 0
  let lenBytes := (List.range 8).map fun i => (8 * len) >>> (8 * i) % 256
  msg ++ [128] ++ zeros ++ lenBytes

/-- Split a byte list into chunks of 64, structurally (fuel = length). -/
def chunks64Aux : Nat → List Nat → List (List Nat)
  | 0, _ => []
  | _, [] => []
  | fuel + 1, x :: xs => (x :: xs).take 64 :: chunks64Aux fuel ((x :: xs).drop 64)

/-- Split a byte list into 64-byte chunks. -/
def chunks64 (l : List Nat) : List (List Nat) := chunks64Aux l.length l

/-- The four bytes of a 32-bit value, little-endian. -/
def leBytes4 (v : Nat) : List Nat := (List.range 4).map fun i => v >>> (8 * i) % 256

/-- The 16-byte MD5 digest of a byte sequence. -/
def md5Bytes (msg : List Nat) : List Nat :=
  let fin := (chunks64 (padMsg msg)).foldl md5Chunk
    (1732584193, 4023233417, 2562383102, 271733878)
  leBytes4 fin.1 ++ leBytes4 fin.2.1 ++ leBytes4 fin.2.2.1 ++ leBytes4 fin.2.2.2

/-- Lowercase hexadecimal digit. -/
def hexChar (n : Nat) : Char := if n < 10 then Char.ofNat (48 + n) else Char.ofNat (87 + n)

/-- Lowercase hex encoding of a byte list, two digits per byte. -/
def hexOfBytes : List Nat → List Char
  | [] => []
  | b :: bs => hexChar (b / 16 % 16) :: hexChar (b % 16) :: hexOfBytes bs

/-- UTF-8 encoding of one character (Go strings are UTF-8 byte sequences). -/
def utf8Bytes (c : Char) : List Nat :=
  let n := c.toNat
  if n < 128 then [n]
  else if n < 2048 then [192 + n / 64, 128 + n % 64]
  else if n < 65536 then [224 + n / 4096, 128 + n / 64 % 64, 128 + n % 64]
  else [240 + n / 262144, 128 + n / 4096 % 64, 128 + n / 64 % 64, 128 + n % 64]

/-- The UTF-8 bytes of a string. -/
def strBytes (s : String) : List Nat := (s.data.map utf8Bytes).flatten

/-- Modelled from the spec: `utils.MD5` (package `github.com/aluka-7/utils`,
not under `src/`) — the spec fixes the hash as MD5 over the concatenated
fields; this is standard MD5 with lowercase-hex output. -/
def MD5 (s : String) : String := String.mk (hexOfBytes (md5Bytes (strBytes s)))

/-! ## Byte-wise string order (Go `sort.Strings` sorts by byte order, which
on UTF-8 strings coincides with code-point order).  Lean's builtin `String`
order does not reduce in the kernel, so an executable equivalent is defined
here, together with the order properties needed for sorting. -/

/-- Lexicographic less-or-equal on character lists, by code point. -/
def strLeAux : List Char → List Char → Bool
  | [], _ => true
  | _ :: _, [] => false
  | a :: as, b :: bs =>
    if a.toNat < b.toNat then true
    else if b.toNat < a.toNat then false
    else strLeAux as bs

/-- Lexicographic less-or-equal on strings, as Go compares strings. -/
def strLe (a b : String) : Bool := strLeAux a.data b.data

/-- The ordering used to sort body keys, as a proposition. -/
def keyLe (a b : String) : Prop := strLe a b = true

instance : DecidableRel keyLe := fun a b => instDecidableEqBool (strLe a b) true

/-- Sorting of key lists, the semantics of Go `sort.Strings`: any sorting
algorithm yields the same list (sorted permutations under an antisymmetric
total order are unique), so a structurally recursive insertion sort is used. -/
def sortKeys (l : List String) : List String := List.insertionSort keyLe l

/-! ## `node` package -/

/-- `Node.String`: names of the three known nodes; other values are Unknown. -/
def nodeString (n : Int) : String :=
  if n = 0 then ("biz") else if n = 1 then ("fund") else if n = 2 then ("opt")
  else ("Unknown")

/-- `node.GetNode`: resolve a node name, `-1` when unknown. -/
def GetNode (s : String) : Int :=
  if s = nodeString 0 then 0
  else if s = nodeString 1 then 1
  else if s = nodeString 2 then 2
  else -1

/-- `Node.IsValid`: `none` when the node is one of the three known ones,
otherwise the error value. -/
def nodeIsValid (n : Int) : Option String :=
  if n = 0 ∨ n = 1 ∨ n = 2 then none else some ("invalid leave type")

/-! ## `message` package: body, envelope, variants, signing -/

/-- `MsgBody`: wrapper around Go `map[string]string`, as an association
list; all states reachable through `Add` have pairwise distinct keys. -/
structure MsgBody where
  Body : List (String × String)
deriving DecidableEq

/-- `MsgBody.Add`: store/overwrite a key (Go map assignment; the stored
value is already string-encoded). -/
def MsgBody.Add (mb : MsgBody) (key value : String) : MsgBody :=
  ⟨(key, value) :: mb.Body.filter fun p => p.1 != key⟩

/-- `MsgBody.Get`: Go map indexing, zero value `""` for a missing key. -/
def MsgBody.Get (mb : MsgBody) (key : String) : String :=
  (mb.Body.lookup key).getD ("")

/-- The key set of a body. -/
def MsgBody.keys (mb : MsgBody) : List String := mb.Body.map Prod.fst

/-- Left brace as text. -/
def braceL : String := "\x7b"

/-- Right brace as text. -/
def braceR : String := "\x7d"

/-- Comma-separated concatenation (the `i > 0` comma logic of the Go loop). -/
def joinComma : List String → String
  | [] => ""
  | [x] => x
  | x :: y :: xs => x ++ "," ++ joinComma (y :: xs)

/-- One serialized body entry, as emitted by the Go loop body. -/
def MsgBody.entryStr (mb : MsgBody) (k : String) : String :=
  "\"" ++ k ++ "\":\"" ++ mb.Get k ++ "\""

/-- `MsgBody.ToString`: canonical serialization — empty map gives `""`;
otherwise the keys are collected, sorted ascending, and emitted as a
JSON-like object string. -/
def MsgBody.ToString (mb : MsgBody) : String :=
  if mb.Body.length = 0 then ("")
  else braceL ++ joinComma ((sortKeys mb.keys).map mb.entryStr) ++ braceR

/-- Build a body by a sequence of `Add` insertions (the only constructor
the Go API offers besides the empty body). -/
def MsgBody.ofList (l : List (String × String)) : MsgBody :=
  l.foldl (fun b p => b.Add p.1 p.2) ⟨[]⟩

/-- `NOTICE` category code. -/
def NOTICE : String := "1"

/-- `SIMPLEX` category code. -/
def SIMPLEX : String := "2"

/-- `DUPLEX` category code. -/
def DUPLEX : String := "3"

/-- `SenderReq` phase code. -/
def SenderReq : String := "1"

/-- `ReceiverAck` phase code. -/
def ReceiverAck : String := "2"

/-- `SenderAck` phase code. -/
def SenderAck : String := "3"

/-- `_MessageCategory.String`. -/
def categoryName (c : String) : String :=
  if c = NOTICE then ("NOTICE")
  else if c = SIMPLEX then ("SIMPLEX")
  else if c = DUPLEX then ("DUPLEX")
  else ("Unknown")

/-- `_MessagePhase.String`. -/
def phaseName (p : String) : String :=
  if p = SenderReq then ("SENDER_REQ")
  else if p = ReceiverAck then ("RECEIVER_ACK")
  else if p = SenderAck then ("SENDER_ACK")
  else ("Unknown")

/-- The error kinds produced by the embedded code (Go returns
`fmt.Errorf` values; the distinct messages are distinct constructors).
`fromListener`/`fromProvider` carry an application error verbatim. -/
inductive AmqError where
  | invalidCategory (category : String)
  | invalidPhase (phase : String)
  | nonNotice
  | nonSimplex
  | nonDuplex
  | invalidQueueName (name : String)
  | fromListener (e : String)
  | fromProvider (e : String)
deriving DecidableEq

/-- `MsgPayload`: the wire envelope. -/
structure MsgPayload where
  Category : String
  Genre : String
  MsgId : String
  SrcAckQueue : String
  DstNewQueue : String
  DstAckQueue : String
  Body : MsgBody
  SendTime : Int
  Phase : String
  Sign : String
deriving DecidableEq

/-- `NoticeMessage` (embedded `Message` fields flattened). -/
structure NoticeMessage where
  genre : String
  msgId : String
  Body : MsgBody
  Destination : String
deriving DecidableEq

/-- `SimplexMessage`. -/
structure SimplexMessage where
  genre : String
  msgId : String
  Body : MsgBody
  Source : String
  Destination : String
deriving DecidableEq

/-- `DuplexMessage`. -/
structure DuplexMessage where
  genre : String
  msgId : String
  Body : MsgBody
  Source : String
  DestinationNew : String
  DestinationAck : String
deriving DecidableEq

/-- The three typed message shapes passed to listeners (Go passes them as
`interface{}` values). -/
inductive MsgVariant where
  | notice (m : NoticeMessage)
  | simplex (m : SimplexMessage)
  | duplex (m : DuplexMessage)
deriving DecidableEq

/-- `MsgPayload.ConvertToNotice`: Go always returns the partially filled
message together with an error on category mismatch (`NewNoticeMessage`
leaves genre empty, body nil — modelled as the empty body — and
destination empty); callers only use the message when the error is `none`. -/
def ConvertToNotice (mpl : MsgPayload) : NoticeMessage × Option AmqError :=
  if mpl.Category ≠ NOTICE then
    ({ genre := "", msgId := mpl.MsgId, Body := ⟨[]⟩, Destination := "" },
     some AmqError.nonNotice)
  else
    ({ genre := mpl.Genre, msgId := mpl.MsgId, Body := mpl.Body,
       Destination := mpl.DstNewQueue }, none)

/-- `MsgPayload.ConvertToSimplex`. -/
def ConvertToSimplex (mpl : MsgPayload) : SimplexMessage × Option AmqError :=
  if mpl.Category ≠ SIMPLEX then
    ({ genre := "", msgId := mpl.MsgId, Body := ⟨[]⟩, Source := "",
       Destination := "" }, some AmqError.nonSimplex)
  else
    ({ genre := mpl.Genre, msgId := mpl.MsgId, Body := mpl.Body,
       Source := mpl.SrcAckQueue, Destination := mpl.DstNewQueue }, none)

/-- `MsgPayload.ConvertToDuplex`. -/
def ConvertToDuplex (mpl : MsgPayload) : DuplexMessage × Option AmqError :=
  if mpl.Category ≠ DUPLEX then
    ({ genre := "", msgId := mpl.MsgId, Body := ⟨[]⟩, Source := "",
       DestinationNew := "", DestinationAck := "" }, some AmqError.nonDuplex)
  else
    ({ genre := mpl.Genre, msgId := mpl.MsgId, Body := mpl.Body,
       Source := mpl.SrcAckQueue, DestinationNew := mpl.DstNewQueue,
       DestinationAck := mpl.DstAckQueue }, none)

/-- The fixed secret suffix appended before hashing. -/
def secretSuffix : String := "@#$dz874&*&*#@@$^&^FS()()!@FSF"

/-- The canonical concatenation hashed by `Signature` (field order exactly
as in the Go `bytes.Buffer` writes; the `Sign` field is not part of it). -/
def signConcat (mpl : MsgPayload) : String :=
  "category=" ++ categoryName mpl.Category ++
  "type=" ++ mpl.Genre ++
  "msgId=" ++ mpl.MsgId ++
  "queue=" ++ mpl.SrcAckQueue ++ mpl.DstAckQueue ++ mpl.DstNewQueue ++
  "body=" ++ mpl.Body.ToString ++
  "@phase=" ++ phaseName mpl.Phase ++
  "@sendTime=" ++ toString mpl.SendTime ++
  secretSuffix

/-- `message.Signature`: MD5 over the canonical concatenation. -/
def Signature (mpl : MsgPayload) : String := MD5 (signConcat mpl)

/-- `MsgPayload.SendQueueName`: Go returns `(name, error)`, with `""` as
the name in the error case. -/
def SendQueueName (mpl : MsgPayload) : String × Option AmqError :=
  if mpl.Phase = SenderReq then (mpl.DstNewQueue, none)
  else if mpl.Phase = ReceiverAck then (mpl.SrcAckQueue, none)
  else if mpl.Phase = SenderAck then (mpl.DstAckQueue, none)
  else ("", some (AmqError.invalidPhase mpl.Phase))

/-- `message.NewPayload`: derive the envelope for the next phase — copy
category/genre/msgId/queues/body, set the send time to now and the phase
to the given phase, then compute and attach the signature. -/
def NewPayload (msg : MsgPayload) (phase : String) (now : Int) : MsgPayload :=
  let mpl : MsgPayload :=
    { Category := msg.Category, Genre := msg.Genre, MsgId := msg.MsgId,
      SrcAckQueue := msg.SrcAckQueue, DstNewQueue := msg.DstNewQueue,
      DstAckQueue := msg.DstAckQueue, Body := msg.Body, SendTime := now,
      Phase := phase, Sign := "" }
  { mpl with Sign := Signature mpl }

/-! ## `provider.MessageListener` and the handshake state machine -/

/-- The application listener capability.  A reply body of `none` is a Go
nil `*MsgBody`; the second component is the returned Go error. -/
structure MessageListener where
  OnReceived : MsgVariant → Option MsgBody × Option String
  OnRecipientAckReceived : String → String → MsgBody → Option MsgBody × Option String
  OnSenderAckReceived : String → String → MsgBody → Option String

/-- `noticeNew`: phase must be `SenderReq`; convert, deliver, never reply. -/
def noticeNew (msg : MsgPayload) (listener : MessageListener) :
    Option MsgPayload × Option AmqError :=
  if msg.Phase ≠ SenderReq then (none, some (AmqError.invalidPhase msg.Phase))
  else
    match ConvertToNotice msg with
    | (_, some e) => (none, some e)
    | (nm, none) =>
      (none, (listener.OnReceived (MsgVariant.notice nm)).2.map AmqError.fromListener)

/-- `simplexNew`: phase must be `SenderReq`; deliver, and when the listener
returns a body, build the `ReceiverAck` reply envelope (new body set after
`NewPayload`, signature then recomputed). -/
def simplexNew (mpl : MsgPayload) (listener : MessageListener) (now : Int) :
    Option MsgPayload × Option AmqError :=
  if mpl.Phase ≠ SenderReq then (none, some (AmqError.invalidPhase mpl.Phase))
  else
    match ConvertToSimplex mpl with
    | (_, some e) => (none, some e)
    | (m, none) =>
      match listener.OnReceived (MsgVariant.simplex m) with
      | (none, err) => (none, err.map AmqError.fromListener)
      | (some rsp, err) =>
        let returnMsg := NewPayload mpl ReceiverAck now
        let withBody := { returnMsg with Body := rsp }
        (some { withBody with Sign := Signature withBody },
         err.map AmqError.fromListener)

/-- `duplexNew`: like `simplexNew` for the duplex category. -/
def duplexNew (mpl : MsgPayload) (listener : MessageListener) (now : Int) :
    Option MsgPayload × Option AmqError :=
  if mpl.Phase ≠ SenderReq then (none, some (AmqError.invalidPhase mpl.Phase))
  else
    match ConvertToDuplex mpl with
    | (_, some e) => (none, some e)
    | (m, none) =>
      match listener.OnReceived (MsgVariant.duplex m) with
      | (none, err) => (none, err.map AmqError.fromListener)
      | (some rsp, err) =>
        let returnMsg := NewPayload mpl ReceiverAck now
        let withBody := { returnMsg with Body := rsp }
        (some { withBody with Sign := Signature withBody },
         err.map AmqError.fromListener)

/-- `simplexRecipientACK`: deliver the ack, terminal. -/
def simplexRecipientACK (mpl : MsgPayload) (listener : MessageListener) :
    Option MsgPayload × Option AmqError :=
  if mpl.Phase ≠ ReceiverAck then (none, some (AmqError.invalidPhase mpl.Phase))
  else
    (none, (listener.OnRecipientAckReceived mpl.Genre mpl.MsgId mpl.Body).2.map
      AmqError.fromListener)

/-- `duplexRecipientACK`: deliver the recipient ack; when the listener
returns a body, build the `SenderAck` reply envelope. -/
def duplexRecipientACK (mpl : MsgPayload) (listener : MessageListener) (now : Int) :
    Option MsgPayload × Option AmqError :=
  if mpl.Phase ≠ ReceiverAck then (none, some (AmqError.invalidPhase mpl.Phase))
  else
    match listener.OnRecipientAckReceived mpl.Genre mpl.MsgId mpl.Body with
    | (none, err) => (none, err.map AmqError.fromListener)
    | (some rsp, err) =>
      let returnMsg := NewPayload mpl SenderAck now
      let withBody := { returnMsg with Body := rsp }
      (some { withBody with Sign := Signature withBody },
       err.map AmqError.fromListener)

/-- `duplexSenderACK`: deliver the sender ack, terminal. -/
def duplexSenderACK (mpl : MsgPayload) (listener : MessageListener) :
    Option MsgPayload × Option AmqError :=
  if mpl.Phase ≠ SenderAck then (none, some (AmqError.invalidPhase mpl.Phase))
  else
    (none, (listener.OnSenderAckReceived mpl.Genre mpl.MsgId mpl.Body).map
      AmqError.fromListener)

/-- `HandleNew`: entry point for new messages, dispatching on category. -/
def HandleNew (msg : MsgPayload) (listener : MessageListener) (now : Int) :
    Option MsgPayload × Option AmqError :=
  if msg.Category = NOTICE then noticeNew msg listener
  else if msg.Category = SIMPLEX then simplexNew msg listener now
  else if msg.Category = DUPLEX then duplexNew msg listener now
  else (none, some (AmqError.invalidCategory msg.Category))

/-- `HandleAck`: entry point for ack messages, dispatching on category and
phase. -/
def HandleAck (msg : MsgPayload) (listener : MessageListener) (now : Int) :
    Option MsgPayload × Option AmqError :=
  if msg.Category = SIMPLEX then
    if msg.Phase = ReceiverAck then simplexRecipientACK msg listener
    else (none, some (AmqError.invalidPhase msg.Phase))
  else if msg.Category = DUPLEX then
    if msg.Phase = ReceiverAck then duplexRecipientACK msg listener now
    else if msg.Phase = SenderAck then duplexSenderACK msg listener
    else (none, some (AmqError.invalidPhase msg.Phase))
  else (none, some (AmqError.invalidCategory msg.Category))

/-! ## `Client.messageCheck` and `Client.Send` (single-partition client:
queue-name pattern `(sys_amq_\d\x7b4\x7d)_(.+)`, matched unanchored with
leftmost-match semantics; submatch 2 is the greedy run of non-newline
characters after the underscore) -/

/-- Try to match the unpartitioned queue-name pattern at the head of the
character list; on success return capture group 2 (the node segment). -/
def matchQueueAt : List Char → Option String
  | 's' :: 'y' :: 's' :: '_' :: 'a' :: 'm' :: 'q' :: '_' ::
      d1 :: d2 :: d3 :: d4 :: '_' :: rest =>
    if d1.isDigit && d2.isDigit && d3.isDigit && d4.isDigit then
      let run := rest.takeWhile fun c => c != '\n'
      if run.isEmpty then none else some (String.mk run)
    else none
  | _ => none

/-- Scan for the leftmost match of the queue-name pattern. -/
def findQueueNodeAux : List Char → Option String
  | [] => none
  | c :: rest =>
    match matchQueueAt (c :: rest) with
    | some n => some n
    | none => findQueueNodeAux rest

/-- `regexp.FindStringSubmatch` for the unpartitioned pattern, reduced to
the node capture group (`none` when the name does not match at all). -/
def findQueueNode (s : String) : Option String := findQueueNodeAux s.data

/-- The queue names a message carries, in the order Go collects them. -/
def nameList : MsgVariant → List String
  | MsgVariant.notice m => [m.Destination]
  | MsgVariant.simplex m => [m.Source, m.Destination]
  | MsgVariant.duplex m => [m.Source, m.DestinationNew, m.DestinationAck]

/-- The name-checking loop of `messageCheck`: a name that fails the pattern
aborts with `invalidQueueName`; a name whose node segment is unknown is
only logged (second component) and checking continues. -/
def checkNames : List String → List String → Option AmqError × List String
  | [], logs => (none, logs)
  | n :: rest, logs =>
    match findQueueNode n with
    | none => (some (AmqError.invalidQueueName n), logs)
    | some nodeName =>
      if nodeIsValid (GetNode nodeName) ≠ none then
        checkNames rest (logs ++ [nodeName])
      else checkNames rest logs

/-- `Client.messageCheck` (single-partition client): returns the error, if
any, and the node names logged as invalid. -/
def messageCheck (msg : MsgVariant) : Option AmqError × List String :=
  checkNames (nameList msg) []

/-- `Client.Send`: run `messageCheck`; on success hand the message to the
provider (the transport capability, passed as a function) and return its
error verbatim. -/
def Send (providerSend : MsgVariant → Option String) (msg : MsgVariant) :
    Option AmqError × List String :=
  match messageCheck msg with
  | (some e, logs) => (some e, logs)
  | (none, logs) => ((providerSend msg).map AmqError.fromProvider, logs)

/-- The spec's own description of canonical serialization, for the
refinement comparison with `MsgBody.ToString`: sort the entries ascending
by key and emit them; the empty body serializes to the empty string. -/
def entryLe (p q : String × String) : Prop := keyLe p.1 q.1

instance : DecidableRel entryLe := fun p q => instDecidableEqBool (strLe p.1 q.1) true

/-- Spec-side canonical serialization of a list of entries (see `entryLe`). -/
def canonicalSerializeSpec (l : List (String × String)) : String :=
  if l = [] then ("")
  else braceL ++ joinComma ((List.insertionSort entryLe l).map fun p =>
    "\"" ++ p.1 ++ "\":\"" ++ p.2 ++ "\"") ++ braceR

/-! ## Concrete fixtures for witnesses and counterexamples -/

/-- A listener that never replies and never fails. -/
def nullListener : MessageListener :=
  { OnReceived := fun _ => (none, none),
    OnRecipientAckReceived := fun _ _ _ => (none, none),
    OnSenderAckReceived := fun _ _ _ => none }

/-- A listener that always replies with a body and no error. -/
def okListener : MessageListener :=
  { OnReceived := fun _ => (some ⟨[("r", "1")]⟩, none),
    OnRecipientAckReceived := fun _ _ _ => (some ⟨[("r", "1")]⟩, none),
    OnSenderAckReceived := fun _ _ _ => none }

/-- A listener that always replies with a body and an error. -/
def replyErrListener : MessageListener :=
  { OnReceived := fun _ => (some ⟨[("r", "1")]⟩, some ("boom")),
    OnRecipientAckReceived := fun _ _ _ => (some ⟨[("r", "1")]⟩, some ("boom")),
    OnSenderAckReceived := fun _ _ _ => some ("boom") }

/-- A concrete simplex envelope at `SenderReq` whose carried signature is
not the recomputed one (it is empty, and signatures have 32 characters). -/
def envSimplex : MsgPayload :=
  { Category := SIMPLEX, Genre := "g", MsgId := "42", SrcAckQueue := "src",
    DstNewQueue := "dst", DstAckQueue := "ack", Body := ⟨[("k", "v")]⟩,
    SendTime := 7, Phase := SenderReq, Sign := "" }

/-- A concrete notice envelope at `SenderReq`. -/
def envNotice : MsgPayload :=
  { Category := NOTICE, Genre := "ping", MsgId := "43", SrcAckQueue := "",
    DstNewQueue := "dst", DstAckQueue := "", Body := ⟨[]⟩,
    SendTime := 7, Phase := SenderReq, Sign := "" }

/-- A concrete duplex envelope at `ReceiverAck`. -/
def envDuplexAck : MsgPayload :=
  { Category := DUPLEX, Genre := "g", MsgId := "44", SrcAckQueue := "src",
    DstNewQueue := "dst", DstAckQueue := "ack", Body := ⟨[("k", "v")]⟩,
    SendTime := 7, Phase := ReceiverAck, Sign := "" }

/-- A concrete simplex envelope at the (illegal for acks) `SenderAck` phase. -/
def envSimplexSenderAck : MsgPayload :=
  { Category := SIMPLEX, Genre := "g", MsgId := "45", SrcAckQueue := "src",
    DstNewQueue := "dst", DstAckQueue := "ack", Body := ⟨[]⟩,
    SendTime := 7, Phase := SenderAck, Sign := "" }

/-- A concrete envelope with an out-of-range phase value. -/
def envBadPhase : MsgPayload :=
  { Category := SIMPLEX, Genre := "g", MsgId := "46", SrcAckQueue := "src",
    DstNewQueue := "dst", DstAckQueue := "ack", Body := ⟨[]⟩,
    SendTime := 7, Phase := "9", Sign := "" }

/-- Two envelopes with equal signed fields, permuted body entry order and
different carried signatures. -/
def envSig1 : MsgPayload :=
  { Category := DUPLEX, Genre := "g", MsgId := "47", SrcAckQueue := "src",
    DstNewQueue := "dst", DstAckQueue := "ack",
    Body := ⟨[("b", "2"), ("a", "1")]⟩,
    SendTime := 9, Phase := SenderReq, Sign := "x" }

/-- See `envSig1`. -/
def envSig2 : MsgPayload :=
  { Category := DUPLEX, Genre := "g", MsgId := "47", SrcAckQueue := "src",
    DstNewQueue := "dst", DstAckQueue := "ack",
    Body := ⟨[("a", "1"), ("b", "2")]⟩,
    SendTime := 9, Phase := SenderReq, Sign := "y" }

/-- A notice message whose destination matches the queue-name pattern but
names an unknown node. -/
def noticeUnknownNode : MsgVariant :=
  MsgVariant.notice
    { genre := "g", msgId := "48", Body := ⟨[]⟩,
      Destination := "sys_amq_0001_nope" }

/-- A simplex message whose queue names match the pattern with known nodes. -/
def simplexValidNames : MsgVariant :=
  MsgVariant.simplex
    { genre := "g", msgId := "49", Body := ⟨[]⟩,
      Source := "sys_amq_0001_biz", Destination := "sys_amq_0002_fund" }

/-- A notice message whose destination fails the queue-name pattern. -/
def noticeBadName : MsgVariant :=
  MsgVariant.notice
    { genre := "g", msgId := "50", Body := ⟨[]⟩, Destination := "foo" }

/-! ## Order properties of the byte-wise string comparison -/

theorem strLeAux_total : ∀ x y, strLeAux x y = true ∨ strLeAux y x = true := by
  intro x
  induction x with
  | nil => intro y; left; rfl
  | cons a as ih =>
    intro y
    cases y with
    | nil => right; rfl
    | cons b bs =>
      by_cases hab : a.toNat < b.toNat
      · left; simp [strLeAux, hab]
      · by_cases hba : b.toNat < a.toNat
        · right; simp [strLeAux, hba]
        · rcases ih bs with h | h
          · left; simp [strLeAux, hab, hba, h]
          · right; simp [strLeAux, hab, hba, h]

theorem strLeAux_trans :
    ∀ x y z, strLeAux x y = true → strLeAux y z = true → strLeAux x z = true := by
  intro x
  induction x with
  | nil => intro y z _ _; rfl
  | cons a as ih =>
    intro y z hxy hyz
    cases y with
    | nil => simp [strLeAux] at hxy
    | cons b bs =>
      cases z with
      | nil => simp [strLeAux] at hyz
      | cons c cs =>
        simp only [strLeAux] at hxy hyz ⊢
        by_cases hab : a.toNat < b.toNat
        · by_cases hbc : b.toNat < c.toNat
          · have hac : a.toNat < c.toNat := by omega
            simp [hac]
          · have hcb : ¬ c.toNat < b.toNat := by
              intro hc; simp [hbc, hc] at hyz
            have hac : a.toNat < c.toNat := by omega
            simp [hac]
        · have hba : ¬ b.toNat < a.toNat := by
            intro hb; simp [hab, hb] at hxy
          have hxy2 : strLeAux as bs = true := by simpa [hab, hba] using hxy
          by_cases hbc : b.toNat < c.toNat
          · have hac : a.toNat < c.toNat := by omega
            simp [hac]
          · have hcb : ¬ c.toNat < b.toNat := by
              intro hc; simp [hbc, hc] at hyz
            have hyz2 : strLeAux bs cs = true := by simpa [hbc, hcb] using hyz
            have hac : ¬ a.toNat < c.toNat := by omega
            have hca : ¬ c.toNat < a.toNat := by omega
            simp [hac, hca, ih bs cs hxy2 hyz2]

theorem strLeAux_antisymm :
    ∀ x y, strLeAux x y = true → strLeAux y x = true → x = y := by
  intro x
  induction x with
  | nil =>
    intro y _ hyx
    cases y with
    | nil => rfl
    | cons b bs => simp [strLeAux] at hyx
  | cons a as ih =>
    intro y hxy hyx
    cases y with
    | nil => simp [strLeAux] at hxy
    | cons b bs =>
      simp only [strLeAux] at hxy hyx
      by_cases hab : a.toNat < b.toNat
      · simp [hab] at hyx; omega
      · by_cases hba : b.toNat < a.toNat
        · simp [hab, hba] at hxy
        · simp [hab, hba] at hxy hyx
          have hn : a.toNat = b.toNat := by omega
          have hc : a = b := by
            apply Char.eq_of_val_eq
            apply UInt32.eq_of_val_eq
            exact Fin.ext hn
          rw [hc, ih bs hxy hyx]

theorem string_data_eq {a b : String} (h : a.data = b.data) : a = b :=
  congrArg String.mk h

instance : IsTotal String keyLe := ⟨fun a b => strLeAux_total a.data b.data⟩

instance : IsTrans String keyLe :=
  ⟨fun a b c hab hbc => strLeAux_trans a.data b.data c.data hab hbc⟩

instance : IsAntisymm String keyLe :=
  ⟨fun a b hab hba => string_data_eq (strLeAux_antisymm a.data b.data hab hba)⟩

instance : IsTotal (String × String) entryLe :=
  ⟨fun p q => strLeAux_total p.1.data q.1.data⟩

instance : IsTrans (String × String) entryLe :=
  ⟨fun p q r hpq hqr => strLeAux_trans p.1.data q.1.data r.1.data hpq hqr⟩

theorem sortKeys_sorted (l : List String) : List.Sorted keyLe (sortKeys l) :=
  List.sorted_insertionSort keyLe l

theorem sortKeys_perm (l : List String) : (sortKeys l).Perm l :=
  List.perm_insertionSort keyLe l

theorem sortKeys_eq_of_perm {l1 l2 : List String} (h : l1.Perm l2) :
    sortKeys l1 = sortKeys l2 :=
  List.eq_of_perm_of_sorted
    (((sortKeys_perm l1).trans h).trans (sortKeys_perm l2).symm)
    (sortKeys_sorted l1) (sortKeys_sorted l2)

/-! ## Association-list lookup under permutation -/

theorem lookup_of_mem :
    ∀ {l : List (String × String)} {p : String × String}, p ∈ l →
      (l.map Prod.fst).Nodup → l.lookup p.1 = some p.2 := by
  intro l
  induction l with
  | nil => intro p hp _; simp at hp
  | cons q rest ih =>
    obtain ⟨qk, qv⟩ := q
    intro p hp hn
    simp only [List.map_cons, List.nodup_cons] at hn
    rcases List.mem_cons.mp hp with h | h
    · subst h
      simp [List.lookup_cons]
    · have hne : p.1 ≠ qk := by
        intro he
        exact hn.1 (he ▸ List.mem_map.mpr ⟨p, h, rfl⟩)
      have hb : (p.1 == qk) = false := beq_eq_false_iff_ne.mpr hne
      simp [List.lookup_cons, hb, ih h hn.2]

theorem mem_of_lookup :
    ∀ {l : List (String × String)} {k v : String}, l.lookup k = some v →
      (k, v) ∈ l := by
  intro l
  induction l with
  | nil => intro k v h; simp [List.lookup] at h
  | cons q rest ih =>
    obtain ⟨qk, qv⟩ := q
    intro k v h
    by_cases he : k = qk
    · subst he
      simp only [List.lookup_cons, beq_self_eq_true, Option.some.injEq] at h
      rw [← h]
      exact List.mem_cons_self _ _
    · have hb : (k == qk) = false := beq_eq_false_iff_ne.mpr he
      simp [List.lookup_cons, hb] at h
      exact List.mem_cons_of_mem _ (ih h)

theorem lookup_perm {l1 l2 : List (String × String)} (h : l1.Perm l2)
    (hn : (l1.map Prod.fst).Nodup) (k : String) :
    l1.lookup k = l2.lookup k := by
  have hn2 : (l2.map Prod.fst).Nodup := (h.map Prod.fst).nodup hn
  cases hl : l1.lookup k with
  | some v =>
    have hm : (k, v) ∈ l2 := h.mem_iff.mp (mem_of_lookup hl)
    exact (lookup_of_mem hm hn2).symm
  | none =>
    cases hl2 : l2.lookup k with
    | none => rfl
    | some v =>
      have hm : (k, v) ∈ l1 := h.mem_iff.mpr (mem_of_lookup hl2)
      rw [lookup_of_mem hm hn] at hl
      exact absurd hl (by simp)

/-! ## Content-dependence of `MsgBody.ToString` -/

theorem toString_perm {b1 b2 : List (String × String)} (h : b1.Perm b2)
    (hn : (b1.map Prod.fst).Nodup) :
    MsgBody.ToString ⟨b1⟩ = MsgBody.ToString ⟨b2⟩ := by
  have hlen := h.length_eq
  unfold MsgBody.ToString
  by_cases hz : b1.length = 0
  · have hz2 : b2.length = 0 := hlen ▸ hz
    simp [hz, hz2]
  · have hz2 : ¬ b2.length = 0 := fun hc => hz (hlen ▸ hc)
    have hk : sortKeys (MsgBody.keys ⟨b1⟩) = sortKeys (MsgBody.keys ⟨b2⟩) :=
      sortKeys_eq_of_perm (h.map Prod.fst)
    have hf : MsgBody.entryStr ⟨b1⟩ = MsgBody.entryStr ⟨b2⟩ := by
      funext k
      unfold MsgBody.entryStr MsgBody.Get
      rw [lookup_perm h hn k]
    simp only [hz, hz2, if_false]
    rw [hk, hf]

theorem ofList_append_single (l : List (String × String)) (p : String × String) :
    MsgBody.ofList (l ++ [p]) = (MsgBody.ofList l).Add p.1 p.2 := by
  unfold MsgBody.ofList
  rw [List.foldl_append]
  rfl

theorem ofList_body_perm :
    ∀ l : List (String × String), (l.map Prod.fst).Nodup →
      (MsgBody.ofList l).Body.Perm l := by
  intro l
  induction l using List.reverseRecOn with
  | nil => intro _; exact List.Perm.refl _
  | append_singleton l p ih =>
    intro hn
    rw [ofList_append_single]
    have hmap : (l ++ [p]).map Prod.fst = l.map Prod.fst ++ [p.1] := by simp
    rw [hmap] at hn
    obtain ⟨hn1, -, hdisj⟩ := List.nodup_append.mp hn
    have hp1 : p.1 ∉ l.map Prod.fst := fun hm =>
      hdisj hm (List.mem_singleton.mpr rfl)
    have hperm := ih hn1
    have hfilter :
        (MsgBody.ofList l).Body.filter (fun q => q.1 != p.1) =
          (MsgBody.ofList l).Body := by
      apply List.filter_eq_self.mpr
      intro a ha
      have ha2 : a ∈ l := hperm.mem_iff.mp ha
      have ha3 : a.1 ∈ l.map Prod.fst := List.mem_map.mpr ⟨a, ha2, rfl⟩
      exact bne_iff_ne.mpr fun he => hp1 (he ▸ ha3)
    have hbody :
        ((MsgBody.ofList l).Add p.1 p.2).Body = p :: (MsgBody.ofList l).Body := by
      simp [MsgBody.Add, hfilter]
    rw [hbody]
    exact (hperm.cons p).trans (List.perm_append_singleton p l).symm

theorem ofList_keys_nodup {l : List (String × String)}
    (hn : (l.map Prod.fst).Nodup) : (MsgBody.ofList l).keys.Nodup :=
  (((ofList_body_perm l hn).symm).map Prod.fst).nodup hn

theorem insertionSort_map_fst (b : List (String × String)) :
    (List.insertionSort entryLe b).map Prod.fst = sortKeys (b.map Prod.fst) := by
  apply List.eq_of_perm_of_sorted (r := keyLe)
  · exact ((List.perm_insertionSort entryLe b).map Prod.fst).trans
      (sortKeys_perm (b.map Prod.fst)).symm
  · exact List.Pairwise.map Prod.fst (fun p q hpq => hpq)
      (List.sorted_insertionSort entryLe b)
  · exact sortKeys_sorted (b.map Prod.fst)

theorem toString_canonical (mb : MsgBody) (hn : mb.keys.Nodup) :
    mb.ToString = canonicalSerializeSpec mb.Body := by
  obtain ⟨b⟩ := mb
  by_cases hz : b = []
  · subst hz; rfl
  · have hlen : ¬ b.length = 0 := fun hc => hz (List.length_eq_zero.mp hc)
    unfold MsgBody.ToString canonicalSerializeSpec
    simp only [hz, hlen, if_false]
    have hmap :
        (List.insertionSort entryLe b).map
            (fun p => "\"" ++ p.1 ++ "\":\"" ++ p.2 ++ "\"") =
          ((List.insertionSort entryLe b).map Prod.fst).map
            (MsgBody.entryStr ⟨b⟩) := by
      rw [List.map_map]
      apply List.map_congr_left
      intro p hp
      have hmem : p ∈ b := (List.perm_insertionSort entryLe b).mem_iff.mp hp
      have hlk : b.lookup p.1 = some p.2 := lookup_of_mem hmem hn
      simp [MsgBody.entryStr, MsgBody.Get, hlk, Function.comp]
    rw [hmap, insertionSort_map_fst]
    rfl

/-! ## The signature is a 32-character hex string and ignores `Sign` -/

theorem hexOfBytes_length : ∀ l : List Nat, (hexOfBytes l).length = 2 * l.length := by
  intro l
  induction l with
  | nil => rfl
  | cons b bs ih =>
    simp only [hexOfBytes, List.length_cons, ih]
    omega

theorem md5Bytes_length (m : List Nat) : (md5Bytes m).length = 16 := by
  simp [md5Bytes, leBytes4]

theorem MD5_length (s : String) : (MD5 s).length = 32 := by
  show (hexOfBytes (md5Bytes (strBytes s))).length = 32
  rw [hexOfBytes_length, md5Bytes_length]

theorem Signature_length (m : MsgPayload) : (Signature m).length = 32 :=
  MD5_length (signConcat m)

theorem Signature_sign_irrelevant (m : MsgPayload) (s : String) :
    Signature { m with Sign := s } = Signature m := rfl

/-! ## Behaviour of the `messageCheck` name loop -/

theorem checkNames_ok :
    ∀ (names logs : List String), (∀ n ∈ names, findQueueNode n ≠ none) →
      (checkNames names logs).1 = none := by
  intro names
  induction names with
  | nil => intro logs _; rfl
  | cons n rest ih =>
    intro logs hall
    have hn : findQueueNode n ≠ none := hall n (List.mem_cons_self _ _)
    cases hqn : findQueueNode n with
    | none => exact absurd hqn hn
    | some nodeName =>
      have hrest : ∀ m ∈ rest, findQueueNode m ≠ none := fun m hm =>
        hall m (List.mem_cons_of_mem _ hm)
      by_cases hv : nodeIsValid (GetNode nodeName) ≠ none
      · simp only [checkNames, hqn]
        rw [if_pos hv]
        exact ih _ hrest
      · simp only [checkNames, hqn]
        rw [if_neg hv]
        exact ih _ hrest

theorem checkNames_err :
    ∀ (names logs : List String) (e : AmqError), (checkNames names logs).1 = some e →
      ∃ n ∈ names, findQueueNode n = none ∧ e = AmqError.invalidQueueName n := by
  intro names
  induction names with
  | nil => intro logs e h; exact absurd h (by simp [checkNames])
  | cons n rest ih =>
    intro logs e h
    cases hqn : findQueueNode n with
    | none =>
      simp only [checkNames, hqn] at h
      exact ⟨n, List.mem_cons_self _ _, hqn, (Option.some.injEq _ _ ▸ h).symm⟩
    | some nodeName =>
      by_cases hv : nodeIsValid (GetNode nodeName) ≠ none
      · simp only [checkNames, hqn] at h
        rw [if_pos hv] at h
        obtain ⟨m, hm, hq, he⟩ := ih _ e h
        exact ⟨m, List.mem_cons_of_mem _ hm, hq, he⟩
      · simp only [checkNames, hqn] at h
        rw [if_neg hv] at h
        obtain ⟨m, hm, hq, he⟩ := ih _ e h
        exact ⟨m, List.mem_cons_of_mem _ hm, hq, he⟩

theorem checkNames_fail :
    ∀ (names logs : List String), (∃ n ∈ names, findQueueNode n = none) →
      ∃ n ∈ names, findQueueNode n = none ∧
        (checkNames names logs).1 = some (AmqError.invalidQueueName n) := by
  intro names
  induction names with
  | nil => intro logs h; simp at h
  | cons n rest ih =>
    intro logs h
    cases hqn : findQueueNode n with
    | none =>
      exact ⟨n, List.mem_cons_self _ _, hqn, by simp [checkNames, hqn]⟩
    | some nodeName =>
      have hrest : ∃ m ∈ rest, findQueueNode m = none := by
        rcases h with ⟨m, hm, hq⟩
        rcases List.mem_cons.mp hm with he | hm2
        · subst he
          rw [hqn] at hq
          exact absurd hq (by simp)
        · exact ⟨m, hm2, hq⟩
      by_cases hv : nodeIsValid (GetNode nodeName) ≠ none
      · obtain ⟨m, hm, hq, hck⟩ := ih (logs ++ [nodeName]) hrest
        refine ⟨m, List.mem_cons_of_mem _ hm, hq, ?_⟩
        simp only [checkNames, hqn]
        rw [if_pos hv]
        exact hck
      · obtain ⟨m, hm, hq, hck⟩ := ih logs hrest
        refine ⟨m, List.mem_cons_of_mem _ hm, hq, ?_⟩
        simp only [checkNames, hqn]
        rw [if_neg hv]
        exact hck

/-! ## Claim C1 -/

/-- C1 (amended): neither `HandleNew` nor `HandleAck` ever inspects the
carried signature field — there is no `SignatureMismatch` rejection in the
code, and the result of both entry points is unchanged by replacing the
signature with any value, so envelopes whose carried signature differs
from the recomputed one are processed (and listeners invoked) exactly as
valid ones.  (The prior envelope is read-only throughout.) -/
theorem c1_handlers_ignore_signature (msg : MsgPayload) (L : MessageListener)
    (now : Int) (s : String) :
    HandleNew { msg with Sign := s } L now = HandleNew msg L now ∧
    HandleAck { msg with Sign := s } L now = HandleAck msg L now :=
  ⟨rfl, rfl⟩

/-- C1 counterexample: a concrete envelope whose carried signature does not
equal the recomputed one is still delivered to the listener by `HandleNew`
— a reply envelope is produced (so `OnReceived` was invoked) and no error
of any kind is returned, contradicting rejection before any listener call. -/
theorem c1_counterexample :
    envSimplex.Sign ≠ Signature envSimplex ∧
    (HandleNew envSimplex okListener 0).1.isSome = true ∧
    (HandleNew envSimplex okListener 0).2 = none := by
  refine ⟨?_, rfl, rfl⟩
  intro h
  have hlen := congrArg String.length h
  rw [Signature_length] at hlen
  exact absurd hlen (by decide)

/-! ## Claim C2 -/

/-- C2 (amended): every `(category, phase, entryPoint)` triple outside the
legality table fails and produces no reply envelope; the error is
`invalidPhase` in all cases except a `NOTICE` envelope handed to
`HandleAck`, which fails with the invalid-category error instead. -/
theorem c2_illegal_triples_fail (env : MsgPayload) (L : MessageListener)
    (now : Int) :
    ((env.Category = NOTICE ∨ env.Category = SIMPLEX ∨ env.Category = DUPLEX) →
      env.Phase ≠ SenderReq →
      HandleNew env L now = (none, some (AmqError.invalidPhase env.Phase))) ∧
    (env.Category = NOTICE →
      HandleAck env L now = (none, some (AmqError.invalidCategory env.Category))) ∧
    (env.Category = SIMPLEX → env.Phase ≠ ReceiverAck →
      HandleAck env L now = (none, some (AmqError.invalidPhase env.Phase))) ∧
    (env.Category = DUPLEX → env.Phase ≠ ReceiverAck → env.Phase ≠ SenderAck →
      HandleAck env L now = (none, some (AmqError.invalidPhase env.Phase))) := by
  refine ⟨?_, ?_, ?_, ?_⟩
  · rintro (hc | hc | hc) hp <;>
      simp [HandleNew, hc, NOTICE, SIMPLEX, DUPLEX, noticeNew, simplexNew,
        duplexNew, hp]
  · intro hc
    simp [HandleAck, hc, NOTICE, SIMPLEX, DUPLEX]
  · intro hc hp
    simp [HandleAck, hc, NOTICE, SIMPLEX, DUPLEX, simplexRecipientACK, hp]
  · intro hc hp1 hp2
    simp [HandleAck, hc, NOTICE, SIMPLEX, DUPLEX, hp1, hp2]

/-- C2 witness: the amended theorem applied at concrete illegal triples. -/
theorem c2_witness :
    HandleNew envDuplexAck nullListener 0 =
        (none, some (AmqError.invalidPhase ReceiverAck)) ∧
    HandleAck envNotice nullListener 0 =
        (none, some (AmqError.invalidCategory NOTICE)) ∧
    HandleAck envSimplexSenderAck nullListener 0 =
        (none, some (AmqError.invalidPhase SenderAck)) :=
  ⟨(c2_illegal_triples_fail envDuplexAck nullListener 0).1
      (Or.inr (Or.inr rfl)) (by decide),
   (c2_illegal_triples_fail envNotice nullListener 0).2.1 rfl,
   (c2_illegal_triples_fail envSimplexSenderAck nullListener 0).2.2.1 rfl
      (by decide)⟩

/-- C2 counterexample: a `NOTICE` envelope at `ReceiverAck` fed to
`HandleAck` fails with the invalid-category error, not with an
`invalidPhase` error as the claim states (`false` below is the
invalid-phase discriminator applied to the actual error). -/
theorem c2_counterexample :
    (HandleAck { envNotice with Phase := ReceiverAck } nullListener 0).2.map
        (fun e => match e with
          | AmqError.invalidPhase _ => true
          | _ => false) = some false := rfl

/-! ## Claim C3 -/

/-- C3: for `SIMPLEX`/`DUPLEX` envelopes at `SenderReq`, `HandleNew`
produces a reply envelope exactly when the listener returns a reply body
(a nil reply body — `none` — yields no envelope), the listener error is
propagated in both cases, and any produced reply is at `ReceiverAck`. -/
theorem c3_reply_iff_listener_body (env : MsgPayload) (L : MessageListener)
    (now : Int) (hp : env.Phase = SenderReq) :
    (env.Category = SIMPLEX →
      (HandleNew env L now).1.isSome =
        (L.OnReceived (MsgVariant.simplex (ConvertToSimplex env).1)).1.isSome ∧
      (HandleNew env L now).2 =
        (L.OnReceived (MsgVariant.simplex (ConvertToSimplex env).1)).2.map
          AmqError.fromListener ∧
      ∀ out, (HandleNew env L now).1 = some out → out.Phase = ReceiverAck) ∧
    (env.Category = DUPLEX →
      (HandleNew env L now).1.isSome =
        (L.OnReceived (MsgVariant.duplex (ConvertToDuplex env).1)).1.isSome ∧
      (HandleNew env L now).2 =
        (L.OnReceived (MsgVariant.duplex (ConvertToDuplex env).1)).2.map
          AmqError.fromListener ∧
      ∀ out, (HandleNew env L now).1 = some out → out.Phase = ReceiverAck) := by
  constructor
  · intro hc
    have hcv : ConvertToSimplex env =
        ({ genre := env.Genre, msgId := env.MsgId, Body := env.Body,
           Source := env.SrcAckQueue, Destination := env.DstNewQueue }, none) := by
      simp [ConvertToSimplex, hc, SIMPLEX]
    rcases hr : L.OnReceived (MsgVariant.simplex
        { genre := env.Genre, msgId := env.MsgId, Body := env.Body,
          Source := env.SrcAckQueue, Destination := env.DstNewQueue })
      with ⟨rsp, err⟩
    cases rsp <;>
      simp [HandleNew, hc, NOTICE, SIMPLEX, DUPLEX, simplexNew, hp, hcv, hr,
        NewPayload]
  · intro hc
    have hcv : ConvertToDuplex env =
        ({ genre := env.Genre, msgId := env.MsgId, Body := env.Body,
           Source := env.SrcAckQueue, DestinationNew := env.DstNewQueue,
           DestinationAck := env.DstAckQueue }, none) := by
      simp [ConvertToDuplex, hc, DUPLEX]
    rcases hr : L.OnReceived (MsgVariant.duplex
        { genre := env.Genre, msgId := env.MsgId, Body := env.Body,
          Source := env.SrcAckQueue, DestinationNew := env.DstNewQueue,
          DestinationAck := env.DstAckQueue })
      with ⟨rsp, err⟩
    cases rsp <;>
      simp [HandleNew, hc, NOTICE, SIMPLEX, DUPLEX, duplexNew, hp, hcv, hr,
        NewPayload]

/-- C3 witness: concrete replies — with a replying listener a `ReceiverAck`
envelope is produced; with a silent listener none is. -/
theorem c3_witness :
    (HandleNew envSimplex okListener 0).1.isSome =
        (okListener.OnReceived
          (MsgVariant.simplex (ConvertToSimplex envSimplex).1)).1.isSome ∧
    (HandleNew envSimplex nullListener 0).2 =
        (nullListener.OnReceived
          (MsgVariant.simplex (ConvertToSimplex envSimplex).1)).2.map
          AmqError.fromListener :=
  ⟨((c3_reply_iff_listener_body envSimplex okListener 0 rfl).1 rfl).1,
   ((c3_reply_iff_listener_body envSimplex nullListener 0 rfl).1 rfl).2.1⟩

/-! ## Claim C4 -/

/-- C4: `SendQueueName` is determined by the phase alone — `SenderReq`
routes to `DstNewQueue`, `ReceiverAck` to `SrcAckQueue`, `SenderAck` to
`DstAckQueue`, and every other phase value yields the invalid-phase error
with an empty queue name (no silent default). -/
theorem c4_send_queue_name (env : MsgPayload) :
    (env.Phase = SenderReq → SendQueueName env = (env.DstNewQueue, none)) ∧
    (env.Phase = ReceiverAck → SendQueueName env = (env.SrcAckQueue, none)) ∧
    (env.Phase = SenderAck → SendQueueName env = (env.DstAckQueue, none)) ∧
    (env.Phase ≠ SenderReq → env.Phase ≠ ReceiverAck → env.Phase ≠ SenderAck →
      SendQueueName env = ("", some (AmqError.invalidPhase env.Phase))) := by
  refine ⟨fun h => by simp [SendQueueName, h],
         fun h => by simp [SendQueueName, h, SenderReq, ReceiverAck],
         fun h => by simp [SendQueueName, h, SenderReq, ReceiverAck, SenderAck],
         fun h1 h2 h3 => by
          simp only [SenderReq] at h1
          simp only [ReceiverAck] at h2
          simp only [SenderAck] at h3
          simp [SendQueueName, SenderReq, ReceiverAck, SenderAck, h1, h2, h3]⟩

/-- C4 witness: the routing theorem applied at concrete phases, including
an out-of-range phase value. -/
theorem c4_witness :
    SendQueueName envSimplex = (envSimplex.DstNewQueue, none) ∧
    SendQueueName envDuplexAck = (envDuplexAck.SrcAckQueue, none) ∧
    SendQueueName envSimplexSenderAck = (envSimplexSenderAck.DstAckQueue, none) ∧
    SendQueueName envBadPhase = ("", some (AmqError.invalidPhase ("9"))) :=
  ⟨(c4_send_queue_name envSimplex).1 rfl,
   (c4_send_queue_name envDuplexAck).2.1 rfl,
   (c4_send_queue_name envSimplexSenderAck).2.2.1 rfl,
   (c4_send_queue_name envBadPhase).2.2.2 (by decide) (by decide) (by decide)⟩

/-! ## Claim C5 -/

/-- C5: canonical body serialization — the empty body serializes to the
empty string; for a body with distinct keys the output is exactly the
spec-side canonical form (entries sorted ascending by key, emitted as a
brace-delimited quoted key/value list); and the serialization depends only
on the final key/value content: permuting the insertion order yields an
identical string. -/
theorem c5_canonical_serialization :
    MsgBody.ToString ⟨[]⟩ = "" ∧
    (∀ mb : MsgBody, mb.keys.Nodup →
      mb.ToString = canonicalSerializeSpec mb.Body) ∧
    (∀ l1 l2 : List (String × String), l1.Perm l2 →
      (l1.map Prod.fst).Nodup →
      (MsgBody.ofList l1).ToString = (MsgBody.ofList l2).ToString) := by
  refine ⟨rfl, toString_canonical, ?_⟩
  intro l1 l2 h hn
  have hn2 : (l2.map Prod.fst).Nodup := (h.map Prod.fst).nodup hn
  have p1 := ofList_body_perm l1 hn
  have p2 := ofList_body_perm l2 hn2
  have hb : (MsgBody.ofList l1).Body.Perm (MsgBody.ofList l2).Body :=
    p1.trans (h.trans p2.symm)
  have hnb : ((MsgBody.ofList l1).Body.map Prod.fst).Nodup :=
    ((p1.symm).map Prod.fst).nodup hn
  exact toString_perm hb hnb

/-- C5 witness: a two-entry body built in both insertion orders serializes
identically, and matches the spec-side canonical form. -/
theorem c5_witness :
    ([("b", "2"), ("a", "1")] : List (String × String)).Perm
        [("a", "1"), ("b", "2")] ∧
    (MsgBody.ofList [("b", "2"), ("a", "1")]).ToString =
        (MsgBody.ofList [("a", "1"), ("b", "2")]).ToString ∧
    (MsgBody.ofList [("b", "2"), ("a", "1")]).ToString =
        canonicalSerializeSpec (MsgBody.ofList [("b", "2"), ("a", "1")]).Body :=
  ⟨List.Perm.swap ("a", "1") ("b", "2") [],
   c5_canonical_serialization.2.2 [("b", "2"), ("a", "1")]
     [("a", "1"), ("b", "2")] (List.Perm.swap ("a", "1") ("b", "2") [])
     (by decide),
   c5_canonical_serialization.2.1 (MsgBody.ofList [("b", "2"), ("a", "1")])
     (by decide)⟩

/-! ## Claim C6 -/

/-- C6: `NewPayload` copies category, genre, msgId, the three queue names
and the body unchanged from the prior envelope, sets the phase to the
given phase and the send time to the fresh time, and attaches a signature
recomputed over the new envelope's own field values.  (Mutation of the
prior envelope cannot occur: the embedding is pure and the Go function
only reads `msg`, constructing a fresh `MsgPayload` literal.) -/
theorem c6_new_payload_fields (msg : MsgPayload) (phase : String) (now : Int) :
    (NewPayload msg phase now).Category = msg.Category ∧
    (NewPayload msg phase now).Genre = msg.Genre ∧
    (NewPayload msg phase now).MsgId = msg.MsgId ∧
    (NewPayload msg phase now).SrcAckQueue = msg.SrcAckQueue ∧
    (NewPayload msg phase now).DstNewQueue = msg.DstNewQueue ∧
    (NewPayload msg phase now).DstAckQueue = msg.DstAckQueue ∧
    (NewPayload msg phase now).Body = msg.Body ∧
    (NewPayload msg phase now).Phase = phase ∧
    (NewPayload msg phase now).SendTime = now ∧
    (NewPayload msg phase now).Sign = Signature (NewPayload msg phase now) :=
  ⟨rfl, rfl, rfl, rfl, rfl, rfl, rfl, rfl, rfl, rfl⟩

/-! ## Claim C7 -/

/-- C7: a `NOTICE` envelope at `SenderReq` is converted to the
`NoticeMessage` carrying the envelope's genre, msgId, body and
`DstNewQueue` as destination, handed to `OnReceived`, and `HandleNew`
returns no reply envelope whatever the listener returns — only the
listener's error is propagated. -/
theorem c7_notice_delivery (env : MsgPayload) (L : MessageListener) (now : Int)
    (hcat : env.Category = NOTICE) (hph : env.Phase = SenderReq) :
    HandleNew env L now =
      (none,
       (L.OnReceived (MsgVariant.notice
          { genre := env.Genre, msgId := env.MsgId, Body := env.Body,
            Destination := env.DstNewQueue })).2.map AmqError.fromListener) := by
  have hcv : ConvertToNotice env =
      ({ genre := env.Genre, msgId := env.MsgId, Body := env.Body,
         Destination := env.DstNewQueue }, none) := by
    simp [ConvertToNotice, hcat, NOTICE]
  simp [HandleNew, hcat, NOTICE, noticeNew, hph, hcv]

/-- C7 witness: the delivery theorem at a concrete notice envelope and a
listener that returns a reply body (which is discarded) and no error. -/
theorem c7_witness :
    HandleNew envNotice okListener 0 = (none, none) :=
  c7_notice_delivery envNotice okListener 0 rfl rfl

/-! ## Claim C8 -/

/-- C8: the signing function is deterministic and content-dependent only —
any two envelopes agreeing on category, genre, msgId, the three queue
names, body content (as a key/value map), phase and send time receive
identical signatures; the embedding is pure, so signing has no side
effects. -/
theorem c8_signature_deterministic (e1 e2 : MsgPayload)
    (hc : e1.Category = e2.Category) (hg : e1.Genre = e2.Genre)
    (hm : e1.MsgId = e2.MsgId) (hs : e1.SrcAckQueue = e2.SrcAckQueue)
    (ha : e1.DstAckQueue = e2.DstAckQueue) (hd : e1.DstNewQueue = e2.DstNewQueue)
    (hb : e1.Body.Body.Perm e2.Body.Body) (hn : e1.Body.keys.Nodup)
    (hp : e1.Phase = e2.Phase) (ht : e1.SendTime = e2.SendTime) :
    Signature e1 = Signature e2 := by
  have hbody : e1.Body.ToString = e2.Body.ToString := toString_perm hb hn
  unfold Signature signConcat
  rw [hc, hg, hm, hs, ha, hd, hp, ht, hbody]

/-- C8 witness: two envelopes with equal signed fields but permuted body
entries and different carried signatures sign identically. -/
theorem c8_witness :
    envSig1.Body.Body.Perm envSig2.Body.Body ∧
    Signature envSig1 = Signature envSig2 :=
  ⟨List.Perm.swap ("a", "1") ("b", "2") [],
   c8_signature_deterministic envSig1 envSig2 rfl rfl rfl rfl rfl rfl
     (List.Perm.swap ("a", "1") ("b", "2") []) (by decide) rfl rfl⟩

/-! ## Claim C9 -/

/-- C9 (amended): before an outbound send every queue name carried by the
message is run through the pattern matcher.  If every name matches the
`sys_amq_dddd_node` pattern, `messageCheck` succeeds and the message is
handed to the transport even when node segments are unknown (they are
merely logged).  Conversely, if any carried name fails the pattern,
`messageCheck` fails with `invalidQueueName` naming a pattern-failing
queue; and whenever `messageCheck` fails, the error is of exactly that
shape and `Send` returns it without consulting the transport. -/
theorem c9_queue_name_validation (msg : MsgVariant)
    (ps : MsgVariant → Option String) :
    ((∀ n ∈ nameList msg, findQueueNode n ≠ none) →
      (messageCheck msg).1 = none ∧
      (Send ps msg).1 = (ps msg).map AmqError.fromProvider) ∧
    ((∃ n ∈ nameList msg, findQueueNode n = none) →
      ∃ n ∈ nameList msg, findQueueNode n = none ∧
        (messageCheck msg).1 = some (AmqError.invalidQueueName n)) ∧
    (∀ e, (messageCheck msg).1 = some e →
      (∃ n ∈ nameList msg, findQueueNode n = none ∧
        e = AmqError.invalidQueueName n) ∧
      ∀ ps2, Send ps2 msg = ((messageCheck msg).1, (messageCheck msg).2)) := by
  refine ⟨?_, fun h => checkNames_fail (nameList msg) [] h, ?_⟩
  · intro hall
    have hok : (messageCheck msg).1 = none := checkNames_ok _ _ hall
    refine ⟨hok, ?_⟩
    unfold Send
    rcases hmc : messageCheck msg with ⟨err, logs⟩
    rw [hmc] at hok
    cases err with
    | none => rfl
    | some e => exact absurd hok (by simp)
  · intro e he
    refine ⟨checkNames_err _ _ e he, ?_⟩
    intro ps2
    unfold Send
    rcases hmc : messageCheck msg with ⟨err, logs⟩
    rw [hmc] at he
    cases err with
    | none => exact absurd he (by simp)
    | some f => rfl

/-- C9 witness: the amended theorem applied at two concrete messages — one
whose names all match the pattern (checking passes and the transport is
consulted), and one carrying the pattern-failing name `foo` (`messageCheck`
fails with `invalidQueueName foo`, and `Send` returns that error with
nothing logged and the transport never consulted, whatever provider is
supplied). -/
theorem c9_witness :
    (messageCheck simplexValidNames).1 = none ∧
    (Send (fun _ => none) simplexValidNames).1 = none ∧
    (messageCheck noticeBadName).1 = some (AmqError.invalidQueueName ("foo")) ∧
    Send (fun _ => some ("boom")) noticeBadName =
      (some (AmqError.invalidQueueName ("foo")), []) :=
  ⟨((c9_queue_name_validation simplexValidNames (fun _ => none)).1
      (by decide)).1,
   ((c9_queue_name_validation simplexValidNames (fun _ => none)).1
      (by decide)).2,
   rfl,
   ((c9_queue_name_validation noticeBadName (fun _ => none)).2.2
      (AmqError.invalidQueueName ("foo")) rfl).2 (fun _ => some ("boom"))⟩

/-- C9 counterexample: a notice whose destination matches the pattern but
names the unknown node `nope` is not rejected: `messageCheck` passes, the
node name is only logged, and the message is handed to the transport (the
provider error surfaces through `Send`). -/
theorem c9_counterexample :
    Send (fun _ => some ("boom")) noticeUnknownNode =
      (some (AmqError.fromProvider ("boom")), ["nope"]) := rfl

/-! ## Claim C10 -/

/-- C10: when the listener returns both a reply body and an error,
`simplexNew`, `duplexNew` and `duplexRecipientACK` return both the signed
reply envelope and the error — neither suppresses the other. -/
theorem c10_reply_and_error_both (env : MsgPayload) (L : MessageListener)
    (now : Int) (rsp : MsgBody) (e : String) :
    (env.Phase = SenderReq → env.Category = SIMPLEX →
      L.OnReceived (MsgVariant.simplex (ConvertToSimplex env).1) =
          (some rsp, some e) →
      (simplexNew env L now).1.isSome = true ∧
      (simplexNew env L now).2 = some (AmqError.fromListener e)) ∧
    (env.Phase = SenderReq → env.Category = DUPLEX →
      L.OnReceived (MsgVariant.duplex (ConvertToDuplex env).1) =
          (some rsp, some e) →
      (duplexNew env L now).1.isSome = true ∧
      (duplexNew env L now).2 = some (AmqError.fromListener e)) ∧
    (env.Phase = ReceiverAck →
      L.OnRecipientAckReceived env.Genre env.MsgId env.Body =
          (some rsp, some e) →
      (duplexRecipientACK env L now).1.isSome = true ∧
      (duplexRecipientACK env L now).2 = some (AmqError.fromListener e)) := by
  refine ⟨?_, ?_, ?_⟩
  · intro hp hc hr
    have hcv : ConvertToSimplex env =
        ({ genre := env.Genre, msgId := env.MsgId, Body := env.Body,
           Source := env.SrcAckQueue, Destination := env.DstNewQueue }, none) := by
      simp [ConvertToSimplex, hc, SIMPLEX]
    rw [hcv] at hr
    simp [simplexNew, hp, hcv, hr, NewPayload]
  · intro hp hc hr
    have hcv : ConvertToDuplex env =
        ({ genre := env.Genre, msgId := env.MsgId, Body := env.Body,
           Source := env.SrcAckQueue, DestinationNew := env.DstNewQueue,
           DestinationAck := env.DstAckQueue }, none) := by
      simp [ConvertToDuplex, hc, DUPLEX]
    rw [hcv] at hr
    simp [duplexNew, hp, hcv, hr, NewPayload]
  · intro hp hr
    simp [duplexRecipientACK, hp, hr, NewPayload]

/-- C10 witness: a listener that replies with both a body and an error;
all three handlers return the reply envelope and the error together. -/
theorem c10_witness :
    (simplexNew envSimplex replyErrListener 0).1.isSome = true ∧
    (simplexNew envSimplex replyErrListener 0).2 =
        some (AmqError.fromListener ("boom")) ∧
    (duplexRecipientACK envDuplexAck replyErrListener 0).1.isSome = true ∧
    (duplexRecipientACK envDuplexAck replyErrListener 0).2 =
        some (AmqError.fromListener ("boom")) :=
  ⟨((c10_reply_and_error_both envSimplex replyErrListener 0 ⟨[("r", "1")]⟩
      "boom").1 rfl rfl rfl).1,
   ((c10_reply_and_error_both envSimplex replyErrListener 0 ⟨[("r", "1")]⟩
      "boom").1 rfl rfl rfl).2,
   ((c10_reply_and_error_both envDuplexAck replyErrListener 0 ⟨[("r", "1")]⟩
      "boom").2.2 rfl rfl).1,
   ((c10_reply_and_error_both envDuplexAck replyErrListener 0 ⟨[("r", "1")]⟩
      "boom").2.2 rfl rfl).2⟩

end Amq
